import Mathlib

/-!
Verification of the span-export contract layer of `opentelemetry-sdk`
(`src/opentelemetry-sdk/src/export/trace/mod.rs`).

The file under `src/` declares the `SpanExporter` trait (`export`,
`shutdown` with a default empty body), the alias
`ExportResult = Result<(), TraceError>`, and the `SpanData` struct with
`#[derive(Clone, Debug, PartialEq)]`.  The component types it references
(`TraceError`, `Status`, `SpanContext`, `Event`, `Link`,
`EvictedHashMap`, `EvictedQueue`, `Resource`, `InstrumentationLibrary`)
and the behavioural contract of `export`/`shutdown` live elsewhere in the
repository and are modelled here from the specification, each marked
`Modelled from the spec:` in its doc comment.
-/

namespace OTelExport

/-- Modelled from the spec: the typed attribute values attached to spans
(the concrete value type lives outside the provided source). -/
inductive Value where
  | boolValue (b : Bool)
  | intValue (i : Int)
  | stringValue (s : String)
  deriving Repr, DecidableEq

/-- Modelled from the spec: one attribute entry, a string key paired with a
typed value. -/
structure KeyValue where
  key : String
  value : Value
  deriving Repr, DecidableEq

/-- Modelled from the spec: span context — trace identifier, span
identifier, trace flags/state, remoteness flag; immutable, copied by value
into every Span Record (the concrete type is in `opentelemetry_api`). -/
structure SpanContext where
  trace_id : Nat
  span_id : Nat
  trace_flags : Nat
  is_remote : Bool
  trace_state : String
  deriving Repr, DecidableEq

/-- Modelled from the spec: span kind enum
{Internal, Server, Client, Producer, Consumer}. -/
inductive SpanKind where
  | internal
  | server
  | client
  | producer
  | consumer
  deriving Repr, DecidableEq

/-- Modelled from the spec: span status {Unset, Ok, Error(description)}
(the concrete `Status` type is in `opentelemetry_api`). -/
inductive Status where
  | unset
  | ok
  | error (description : String)
  deriving Repr, DecidableEq

/-- The description text carried by an error status, if any. -/
def Status.descriptionText : Status → Option String
  | .error d => some d
  | _ => none

/-- Wall-clock timestamps (`std::time::SystemTime`), modelled as
nanoseconds since an epoch. -/
abbrev SystemTime := Nat

/-- Modelled from the spec: a timestamped sub-event within a span,
{name, timestamp, attributes}. -/
structure Event where
  name : String
  timestamp : SystemTime
  attributes : List KeyValue
  deriving Repr, DecidableEq

/-- Modelled from the spec: a link to a causally related span,
{span_context, attributes}. -/
structure Link where
  span_context : SpanContext
  attributes : List KeyValue
  deriving Repr, DecidableEq

/-- Modelled from the spec: shared immutable attribute set describing the
producing entity (the concrete `Resource` is in `opentelemetry-sdk` but
outside the provided source). -/
structure Resource where
  attrs : List KeyValue
  deriving Repr, DecidableEq

/-- Modelled from the spec: instrumentation scope {name, version}
identifying the code that produced the span. -/
structure InstrumentationLibrary where
  name : String
  version : Option String
  deriving Repr, DecidableEq

/-- Rust's `Cow<'static, T>`: either borrowed (static) or owned storage of
the same content. -/
inductive Cow (α : Type) where
  | borrowed (val : α)
  | owned (val : α)
  deriving Repr

/-- The dereferenced content of a `Cow`, ignoring the storage variant. -/
def Cow.value {α : Type} : Cow α → α
  | .borrowed v => v
  | .owned v => v

/-- Rust's `PartialEq` for `Cow` compares the dereferenced contents, not
the storage variants. -/
instance {α : Type} [DecidableEq α] : BEq (Cow α) :=
  ⟨fun a b => decide (a.value = b.value)⟩

/-- Modelled from the spec: bounded ordered sequence (used for events and
links) exposing current contents, a fixed capacity and a count of entries
dropped after capacity was exceeded (the concrete `EvictedQueue` lives
outside the provided source; the open drop policy is chosen as
drop-newest beyond capacity, the example policy of §9). -/
structure EvictedQueue (α : Type) where
  queue : List α
  capacity : Nat
  dropped_count : Nat
  deriving Repr, DecidableEq

/-- A fresh empty bounded sequence with the given capacity. -/
def EvictedQueue.new (α : Type) (capacity : Nat) : EvictedQueue α :=
  ⟨[], capacity, 0⟩

/-- Insert one entry: appended while below capacity, otherwise counted as
dropped. -/
def EvictedQueue.push_back {α : Type} (q : EvictedQueue α) (value : α) :
    EvictedQueue α :=
  if q.queue.length < q.capacity then
    { q with queue := q.queue ++ [value] }
  else
    { q with dropped_count := q.dropped_count + 1 }

/-- Insert a list of entries in order. -/
def EvictedQueue.push_all {α : Type} (q : EvictedQueue α) (l : List α) :
    EvictedQueue α :=
  l.foldl EvictedQueue.push_back q

/-- Modelled from the spec: bounded ordered mapping string key → typed
value (used for span attributes), exposing current contents, a fixed
capacity and a dropped-entry count (the concrete `EvictedHashMap` lives
outside the provided source; drop-newest beyond capacity, per §9). -/
structure EvictedHashMap where
  map : List KeyValue
  capacity : Nat
  dropped_count : Nat
  deriving Repr, DecidableEq

/-- A fresh empty bounded mapping with the given capacity. -/
def EvictedHashMap.new (capacity : Nat) : EvictedHashMap :=
  ⟨[], capacity, 0⟩

/-- Insert one entry: an existing key is updated in place; a new key is
appended while below capacity and otherwise counted as dropped. -/
def EvictedHashMap.insert (m : EvictedHashMap) (kv : KeyValue) :
    EvictedHashMap :=
  if m.map.any (fun p => p.key == kv.key) then
    { m with map := m.map.map (fun p => if p.key == kv.key then kv else p) }
  else if m.map.length < m.capacity then
    { m with map := m.map ++ [kv] }
  else
    { m with dropped_count := m.dropped_count + 1 }

/-- Insert a list of entries in order. -/
def EvictedHashMap.insert_all (m : EvictedHashMap) (l : List KeyValue) :
    EvictedHashMap :=
  l.foldl EvictedHashMap.insert m

/-- The `SpanData` struct from the source: the immutable exportable snapshot of a
finished span, with the twelve fields of the Rust struct. -/
structure SpanData where
  span_context : SpanContext
  parent_span_id : Nat
  span_kind : SpanKind
  name : Cow String
  start_time : SystemTime
  end_time : SystemTime
  attributes : EvictedHashMap
  events : EvictedQueue Event
  links : EvictedQueue Link
  status : Status
  resource : Cow Resource
  instrumentation_lib : InstrumentationLibrary

/-- The `#[derive(PartialEq)]` equality of `SpanData`: field-for-field,
each field compared with its own equality (content equality for the
`Cow` fields, structural equality elsewhere). -/
def SpanData.beq (a b : SpanData) : Bool :=
  a.span_context == b.span_context &&
  a.parent_span_id == b.parent_span_id &&
  a.span_kind == b.span_kind &&
  a.name == b.name &&
  a.start_time == b.start_time &&
  a.end_time == b.end_time &&
  a.attributes == b.attributes &&
  a.events == b.events &&
  a.links == b.links &&
  a.status == b.status &&
  a.resource == b.resource &&
  a.instrumentation_lib == b.instrumentation_lib

instance : BEq SpanData := ⟨SpanData.beq⟩

/-- Modelled from the spec: the error taxonomy of §7 carried by a failing
export (the concrete `TraceError` is in `opentelemetry_api`). -/
inductive TraceError where
  | encodingError
  | transportError
  | timeoutError
  | alreadyShutDown
  deriving Repr, DecidableEq

/-- The `ExportResult` alias from the source: `Result<(), TraceError>` — success
with no payload, or one classified error. -/
abbrev ExportResult := Except TraceError Unit

/-- Modelled from the spec: the lifecycle states of the export contract's
state machine, {Active, ShutDown}. -/
inductive ExporterState where
  | active
  | shutDown
  deriving Repr, DecidableEq

/-- Modelled from the spec: an exporter instance implementing the export
contract of §4.1.  The sink's backend behaviour is abstracted as the time
an attempt on a batch would take and the outcome it would produce;
`deadline` is the sink's own configured internal deadline; `sent` logs
the batches actually handed to the backend. -/
structure Exporter where
  state : ExporterState
  deadline : Nat
  backendTime : List SpanData → Nat
  backendResult : List SpanData → ExportResult
  sent : List (List SpanData)

/-- Modelled from the spec: the `transmit` operation of the export
contract.  A shut-down instance fails with AlreadyShutDown and changes
nothing; an empty batch succeeds with no backend interaction; otherwise
the backend attempt runs under the sink's internal deadline, timing out
with an error instead of hanging. -/
def transmit (e : Exporter) (batch : List SpanData) :
    ExportResult × Nat × Exporter :=
  match e.state with
  | .shutDown => (.error .alreadyShutDown, 0, e)
  | .active =>
    if batch.isEmpty then (.ok (), 0, e)
    else if e.deadline < e.backendTime batch then
      (.error .timeoutError, e.deadline, { e with sent := e.sent ++ [batch] })
    else
      (e.backendResult batch, e.backendTime batch,
        { e with sent := e.sent ++ [batch] })

/-- The result component of a `transmit` call. -/
def transmitResult (e : Exporter) (batch : List SpanData) : ExportResult :=
  (transmit e batch).1

/-- The abstract time consumed by a `transmit` call. -/
def transmitElapsed (e : Exporter) (batch : List SpanData) : Nat :=
  (transmit e batch).2.1

/-- The exporter state after a `transmit` call. -/
def transmitNext (e : Exporter) (batch : List SpanData) : Exporter :=
  (transmit e batch).2.2

/-- Modelled from the spec: the `shut down` operation of the export
contract moves the state machine to its terminal ShutDown state and
returns nothing. -/
def shutdown (e : Exporter) : Exporter :=
  { e with state := .shutDown }

/-- The default implementation of `SpanExporter::shutdown` in the source,
`fn shutdown(&mut self) {}`: an empty body returning unit, touching no
state. -/
def shutdown_default (e : Exporter) : Unit × Exporter :=
  ((), e)

/-- Run a sequence of `transmit` calls, collecting the results and the
final exporter. -/
def transmitAll : Exporter → List (List SpanData) → List ExportResult × Exporter
  | e, [] => ([], e)
  | e, b :: rest =>
    let out := transmit e b
    let tail := transmitAll out.2.2 rest
    (out.1 :: tail.1, tail.2)

/-- A concrete healthy exporter used to instantiate witnesses. -/
def egExporter : Exporter where
  state := .active
  deadline := 5
  backendTime := fun batch => batch.length
  backendResult := fun _ => .ok ()
  sent := []

/-- A concrete span record used to instantiate witnesses. -/
def egSpan : SpanData where
  span_context := ⟨1, 2, 1, false, ""⟩
  parent_span_id := 0
  span_kind := .internal
  name := .borrowed "op"
  start_time := 10
  end_time := 10
  attributes := EvictedHashMap.new 4
  events := EvictedQueue.new Event 4
  links := EvictedQueue.new Link 4
  status := .unset
  resource := .borrowed ⟨[]⟩
  instrumentation_lib := ⟨"lib", none⟩

/-- C3: every value of `ExportResult` is exactly one of two outcomes —
success carrying no payload, or failure carrying exactly one classified
error kind from {EncodingError, TransportError, TimeoutError,
AlreadyShutDown}; no other outcome is representable. -/
theorem exportResult_two_outcomes (r : ExportResult) :
    r = Except.ok () ∨
    ∃ k : TraceError, r = Except.error k ∧
      (k = TraceError.encodingError ∨ k = TraceError.transportError ∨
       k = TraceError.timeoutError ∨ k = TraceError.alreadyShutDown) := by
  cases r with
  | error k =>
    refine Or.inr ⟨k, rfl, ?_⟩
    cases k <;> simp
  | ok u => cases u; exact Or.inl rfl

/-- C6: the shut down operation's return type carries no failure
information (its payload is the unit value), and the default
implementation in the source is a no-op leaving the exporter entirely
unchanged. -/
theorem shutdown_default_noop (e : Exporter) :
    shutdown_default e = ((), e) := rfl

/-- C7: constructing a span record imposes no ordering precondition on
its timestamps — any pair of start and end times, including equal ones
and end earlier than start, is accepted as given, and the record
participates normally in a batch. -/
theorem spanData_no_timestamp_precondition (sc : SpanContext) (pid : Nat)
    (kind : SpanKind) (nm : Cow String) (st et : SystemTime)
    (attrs : EvictedHashMap) (evs : EvictedQueue Event)
    (lks : EvictedQueue Link) (stat : Status) (res : Cow Resource)
    (lib : InstrumentationLibrary) :
    let r : SpanData := ⟨sc, pid, kind, nm, st, et, attrs, evs, lks, stat, res, lib⟩
    r.start_time = st ∧ r.end_time = et ∧
      r ∈ [r] ∧ ([r] : List SpanData).length = 1 := by
  exact ⟨rfl, rfl, List.mem_singleton.mpr rfl, rfl⟩

/-- Content equality of a `Cow` with itself. -/
theorem Cow.beq_self {α : Type} [DecidableEq α] (c : Cow α) :
    (c == c) = true := by
  simp [BEq.beq]

/-- C4: two `SpanData` records constructed from field-for-field identical
inputs compare equal under the derived `PartialEq`. -/
theorem spanData_structural_equality (sc : SpanContext) (pid : Nat)
    (kind : SpanKind) (nm : Cow String) (st et : SystemTime)
    (attrs : EvictedHashMap) (evs : EvictedQueue Event)
    (lks : EvictedQueue Link) (stat : Status) (res : Cow Resource)
    (lib : InstrumentationLibrary) :
    SpanData.beq ⟨sc, pid, kind, nm, st, et, attrs, evs, lks, stat, res, lib⟩
      ⟨sc, pid, kind, nm, st, et, attrs, evs, lks, stat, res, lib⟩ = true := by
  simp [SpanData.beq, Cow.beq_self]

/-- C8: a span record constructed with status Error(s) preserves the
description text exactly — reading the status back yields Error(s) with
the identical text — and two records built with the same fields, both
carrying Error(s), compare equal. -/
theorem spanData_status_error_roundtrip (s : String) (sc : SpanContext)
    (pid : Nat) (kind : SpanKind) (nm : Cow String) (st et : SystemTime)
    (attrs : EvictedHashMap) (evs : EvictedQueue Event)
    (lks : EvictedQueue Link) (res : Cow Resource)
    (lib : InstrumentationLibrary) :
    let r : SpanData :=
      ⟨sc, pid, kind, nm, st, et, attrs, evs, lks, Status.error s, res, lib⟩
    r.status = Status.error s ∧
      r.status.descriptionText = some s ∧
      SpanData.beq r r = true := by
  refine ⟨rfl, rfl, ?_⟩
  simp [SpanData.beq, Cow.beq_self]

/-- C10: `SpanData` equality compares `Cow`-held fields (name, resource)
by content, not storage variant — two records identical except that one
holds name and resource borrowed and the other owned, with the same
contents, compare equal. -/
theorem spanData_cow_content_equality (s : String) (rv : Resource)
    (sc : SpanContext) (pid : Nat) (kind : SpanKind) (st et : SystemTime)
    (attrs : EvictedHashMap) (evs : EvictedQueue Event)
    (lks : EvictedQueue Link) (stat : Status)
    (lib : InstrumentationLibrary) :
    SpanData.beq
      ⟨sc, pid, kind, Cow.borrowed s, st, et, attrs, evs, lks, stat,
        Cow.borrowed rv, lib⟩
      ⟨sc, pid, kind, Cow.owned s, st, et, attrs, evs, lks, stat,
        Cow.owned rv, lib⟩ = true := by
  simp [SpanData.beq, BEq.beq, Cow.value]

/-- A single transmit on a shut-down instance fails with AlreadyShutDown,
consumes no time and leaves the exporter untouched. -/
theorem transmit_shutDown (e : Exporter) (h : e.state = ExporterState.shutDown)
    (batch : List SpanData) :
    transmit e batch = (.error .alreadyShutDown, 0, e) := by
  unfold transmit
  rw [h]

/-- C1: ShutDown is terminal — after `shutdown` returns, every subsequent
transmit call, over any sequence of batches, returns AlreadyShutDown, the
exporter stays in the ShutDown state unchanged, and nothing is ever
handed to the backend. -/
theorem export_after_shutdown_terminal (e : Exporter)
    (batches : List (List SpanData)) :
    (transmitAll (shutdown e) batches).1 =
      List.replicate batches.length (Except.error TraceError.alreadyShutDown) ∧
    (transmitAll (shutdown e) batches).2 = shutdown e ∧
    (transmitAll (shutdown e) batches).2.state = ExporterState.shutDown ∧
    (transmitAll (shutdown e) batches).2.sent = e.sent := by
  have step : ∀ b, transmit (shutdown e) b =
      (.error .alreadyShutDown, 0, shutdown e) := by
    intro b
    exact transmit_shutDown (shutdown e) rfl b
  induction batches with
  | nil => exact ⟨rfl, rfl, rfl, rfl⟩
  | cons b rest ih =>
    simp only [transmitAll, step b, List.length_cons, List.replicate_succ]
    exact ⟨by rw [ih.1], ih.2.1, ih.2.2.1, ih.2.2.2⟩

/-- C9: on a fresh, non-shut-down exporter, transmitting the empty batch
returns success immediately — zero elapsed time, no backend interaction
and no change to the exporter. -/
theorem export_empty_batch_ok (e : Exporter)
    (h : e.state = ExporterState.active) :
    transmit e [] = (.ok (), 0, e) := by
  unfold transmit
  rw [h]
  rfl

/-- Closed witness for C9 at a concrete active exporter. -/
theorem export_empty_batch_ok_witness :
    egExporter.state = ExporterState.active ∧
    transmit egExporter [] = (.ok (), 0, egExporter) :=
  ⟨rfl, export_empty_batch_ok egExporter rfl⟩

/-- C2: on a non-shut-down exporter every transmit call resolves — it
returns either success or a classified error, and the abstract time it
consumes never exceeds the exporter's configured deadline (an overlong
backend attempt is cut off with a timeout error instead of hanging). -/
theorem export_terminates_within_deadline (e : Exporter)
    (batch : List SpanData) (h : e.state = ExporterState.active) :
    (transmit e batch).2.1 ≤ e.deadline ∧
    ((transmit e batch).1 = Except.ok () ∨
     ∃ k : TraceError, (transmit e batch).1 = Except.error k) := by
  unfold transmit
  rw [h]
  by_cases hb : batch.isEmpty
  · simp [hb]
  · simp only [hb, if_false]
    by_cases ht : e.deadline < e.backendTime batch
    · simp only [ht, if_true]
      exact ⟨le_refl _, Or.inr ⟨_, rfl⟩⟩
    · simp only [ht, if_false]
      refine ⟨Nat.le_of_not_lt ht, ?_⟩
      cases hr : e.backendResult batch with
      | ok u => cases u; exact Or.inl rfl
      | error k => exact Or.inr ⟨k, rfl⟩

/-- Closed witness for C2 at a concrete active exporter and concrete
one-record batch. -/
theorem export_terminates_within_deadline_witness :
    egExporter.state = ExporterState.active ∧
    ((transmit egExporter [egSpan]).2.1 ≤ egExporter.deadline ∧
     ((transmit egExporter [egSpan]).1 = Except.ok () ∨
      ∃ k : TraceError, (transmit egExporter [egSpan]).1 = Except.error k)) :=
  ⟨rfl, export_terminates_within_deadline egExporter [egSpan] rfl⟩

/-- Size, capacity and drop-count bookkeeping of a run of inserts into a
bounded sequence whose size is within capacity. -/
theorem EvictedQueue.push_all_spec {α : Type} (l : List α) :
    ∀ q : EvictedQueue α, q.queue.length ≤ q.capacity →
      (q.push_all l).capacity = q.capacity ∧
      (q.push_all l).queue.length = min (q.queue.length + l.length) q.capacity ∧
      (q.push_all l).dropped_count =
        q.dropped_count + (q.queue.length + l.length - q.capacity) := by
  induction l with
  | nil =>
    intro q hq
    simp only [push_all, List.foldl_nil, List.length_nil]
    exact ⟨trivial, by omega, by omega⟩
  | cons v t ih =>
    intro q hq
    have hstep : q.push_all (v :: t) = (q.push_back v).push_all t := rfl
    rw [hstep]
    by_cases hlt : q.queue.length < q.capacity
    · have hpb : q.push_back v = { q with queue := q.queue ++ [v] } := by
        simp [push_back, hlt]
      rw [hpb]
      have h2 := ih { q with queue := q.queue ++ [v] } (by simp; omega)
      refine ⟨h2.1, ?_, ?_⟩
      · rw [h2.2.1]; simp; omega
      · rw [h2.2.2]; simp; omega
    · have hpb : q.push_back v = { q with dropped_count := q.dropped_count + 1 } := by
        simp [push_back, hlt]
      rw [hpb]
      have h2 := ih { q with dropped_count := q.dropped_count + 1 } (by simpa using hq)
      refine ⟨h2.1, ?_, ?_⟩
      · rw [h2.2.1]; simp; omega
      · rw [h2.2.2]; simp; omega

/-- Size, capacity and drop-count bookkeeping of a run of inserts of
fresh, pairwise-distinct keys into a bounded mapping whose size is within
capacity. -/
theorem EvictedHashMap.insert_all_spec (l : List KeyValue) :
    ∀ m : EvictedHashMap, m.map.length ≤ m.capacity →
      (∀ p ∈ l, ∀ q ∈ m.map, p.key ≠ q.key) →
      l.Pairwise (fun a b => a.key ≠ b.key) →
      (m.insert_all l).capacity = m.capacity ∧
      (m.insert_all l).map.length = min (m.map.length + l.length) m.capacity ∧
      (m.insert_all l).dropped_count =
        m.dropped_count + (m.map.length + l.length - m.capacity) := by
  induction l with
  | nil =>
    intro m hm _ _
    simp only [insert_all, List.foldl_nil, List.length_nil]
    exact ⟨trivial, by omega, by omega⟩
  | cons kv t ih =>
    intro m hm hfresh hdist
    have hstep : m.insert_all (kv :: t) = (m.insert kv).insert_all t := rfl
    rw [hstep]
    have hany : m.map.any (fun p => p.key == kv.key) = false := by
      rw [List.any_eq_false]
      intro p hp
      have := hfresh kv (List.mem_cons_self kv t) p hp
      simp [this.symm]
    have hpairt : t.Pairwise (fun a b => a.key ≠ b.key) :=
      (List.pairwise_cons.mp hdist).2
    have hheadt : ∀ b ∈ t, kv.key ≠ b.key := (List.pairwise_cons.mp hdist).1
    by_cases hlt : m.map.length < m.capacity
    · have hins : m.insert kv = { m with map := m.map ++ [kv] } := by
        simp [insert, hany, hlt]
      rw [hins]
      have hfresh2 : ∀ p ∈ t, ∀ q ∈ m.map ++ [kv], p.key ≠ q.key := by
        intro p hp q hq
        rcases List.mem_append.mp hq with hq1 | hq2
        · exact hfresh p (List.mem_cons_of_mem kv hp) q hq1
        · rw [List.mem_singleton.mp hq2]
          exact fun hc => hheadt p hp hc.symm
      have h2 := ih { m with map := m.map ++ [kv] } (by simp; omega) hfresh2 hpairt
      refine ⟨h2.1, ?_, ?_⟩
      · rw [h2.2.1]; simp; omega
      · rw [h2.2.2]; simp; omega
    · have hins : m.insert kv =
          { m with dropped_count := m.dropped_count + 1 } := by
        simp [insert, hany, hlt]
      rw [hins]
      have hfresh2 : ∀ p ∈ t, ∀ q ∈ m.map, p.key ≠ q.key := fun p hp =>
        hfresh p (List.mem_cons_of_mem kv hp)
      have h2 := ih { m with dropped_count := m.dropped_count + 1 }
        (by simpa using hm) hfresh2 hpairt
      refine ⟨h2.1, ?_, ?_⟩
      · rw [h2.2.1]; simp; omega
      · rw [h2.2.2]; simp; omega

/-- C5: for a bounded collection of capacity C (the sequence used for
events/links, and the mapping used for attributes fed pairwise-distinct
keys), inserting N entries with N > C leaves the drop counter at exactly
N − C, the final size at C, and the exposed size never exceeds C at any
intermediate point of the run. -/
theorem bounded_collections_drop_exact (C : Nat) (entries : List KeyValue)
    (hdist : entries.Pairwise (fun a b => a.key ≠ b.key))
    (hover : C < entries.length) :
    ((EvictedQueue.new KeyValue C).push_all entries).dropped_count =
        entries.length - C ∧
    ((EvictedQueue.new KeyValue C).push_all entries).queue.length = C ∧
    ((EvictedHashMap.new C).insert_all entries).dropped_count =
        entries.length - C ∧
    ((EvictedHashMap.new C).insert_all entries).map.length = C ∧
    (∀ p s, entries = p ++ s →
      ((EvictedQueue.new KeyValue C).push_all p).queue.length ≤ C ∧
      ((EvictedHashMap.new C).insert_all p).map.length ≤ C) := by
  have hq := EvictedQueue.push_all_spec entries (EvictedQueue.new KeyValue C)
    (by simp [EvictedQueue.new])
  have hmfresh : ∀ p ∈ entries, ∀ q ∈ (EvictedHashMap.new C).map,
      p.key ≠ q.key := by
    intro p _ q hq2
    simp [EvictedHashMap.new] at hq2
  have hm := EvictedHashMap.insert_all_spec entries (EvictedHashMap.new C)
    (by simp [EvictedHashMap.new]) hmfresh hdist
  simp only [EvictedQueue.new, EvictedHashMap.new, List.length_nil] at hq hm ⊢
  refine ⟨by omega, by omega, by omega, by omega, ?_⟩
  intro p s hps
  have hpairp : p.Pairwise (fun a b => a.key ≠ b.key) := by
    rw [hps] at hdist
    exact (List.pairwise_append.mp hdist).1
  have hq2 := EvictedQueue.push_all_spec p (EvictedQueue.new KeyValue C)
    (by simp [EvictedQueue.new])
  have hmfresh2 : ∀ x ∈ p, ∀ q ∈ (EvictedHashMap.new C).map,
      x.key ≠ q.key := by
    intro x _ q hq3
    simp [EvictedHashMap.new] at hq3
  have hm2 := EvictedHashMap.insert_all_spec p (EvictedHashMap.new C)
    (by simp [EvictedHashMap.new]) hmfresh2 hpairp
  simp only [EvictedQueue.new, EvictedHashMap.new, List.length_nil] at hq2 hm2 ⊢
  exact ⟨by omega, by omega⟩

/-- Closed witness for C5: capacity 1, two distinct-keyed entries, one
drop. -/
theorem bounded_collections_drop_exact_witness :
    [(⟨"a", Value.intValue 0⟩ : KeyValue), ⟨"b", Value.intValue 0⟩].Pairwise
      (fun a b => a.key ≠ b.key) ∧
    1 < ([(⟨"a", Value.intValue 0⟩ : KeyValue),
          ⟨"b", Value.intValue 0⟩]).length ∧
    ((EvictedQueue.new KeyValue 1).push_all
        [⟨"a", Value.intValue 0⟩, ⟨"b", Value.intValue 0⟩]).dropped_count = 1 ∧
    ((EvictedHashMap.new 1).insert_all
        [⟨"a", Value.intValue 0⟩, ⟨"b", Value.intValue 0⟩]).dropped_count = 1 := by
  have hd : [(⟨"a", Value.intValue 0⟩ : KeyValue),
      ⟨"b", Value.intValue 0⟩].Pairwise (fun a b => a.key ≠ b.key) := by
    decide
  have h := bounded_collections_drop_exact 1
    [⟨"a", Value.intValue 0⟩, ⟨"b", Value.intValue 0⟩] hd (by decide)
  exact ⟨hd, by decide, h.1, h.2.2.1⟩

end OTelExport
